import Mathlib

/-!
Verification of the fun-celebrity-game core logic: the relevance-window
estimator, the session state machine, and the era-distribution metrics
engine, embedded shallowly from the TypeScript source.  JavaScript numbers
are modelled as exact rationals, counts as naturals, years as integers.
-/

namespace CelebrityGame

/-- The inclusive year range during which a figure is considered culturally
active.  The source field named `end` is a reserved word in Lean, so it is
rendered `finish` here. -/
structure RelevanceWindow where
  start : Int
  finish : Int
deriving DecidableEq, Repr

/-- Celebrity record, from the `Celebrity` interface in the TMDB service. -/
structure Celebrity where
  id : Int
  name : String
  image_url : String
  relevance_window : RelevanceWindow
  occupation : String
  popularity_score : Int
  top_works : List String
deriving DecidableEq, Repr

/-- A recorded answer as the results route reads it back from storage. -/
structure Response where
  celebrityId : Int
  recognized : Bool
deriving DecidableEq, Repr

/- ## Relevance Window Estimator (services/tmdb.ts, estimateRelevanceWindow) -/

/-- Year hints that survive the plausibility filter:
`year >= 1920 && year <= currentYear`. -/
def survivors (hints : List Int) (currentYear : Int) : List Int :=
  hints.filter (fun y => decide (1920 ≤ y ∧ y ≤ currentYear))

/-- Fold form of `Math.min(...xs)` over a nonempty list given as head and tail. -/
def minList (x : Int) (xs : List Int) : Int := xs.foldl min x

/-- Fold form of `Math.max(...xs)` over a nonempty list given as head and tail. -/
def maxList (x : Int) (xs : List Int) : Int := xs.foldl max x

/-- The preliminary window start `Math.max(1950, minYear - 3)`;
junk value 0 when no hint survives (the estimator then returns `none`
before this value is consulted). -/
def prelimStart (hints : List Int) (currentYear : Int) : Int :=
  match survivors hints currentYear with
  | [] => 0
  | y :: ys => max 1950 (minList y ys - 3)

/-- The preliminary window end `Math.min(currentYear, maxYear + 3)`;
junk value 0 when no hint survives. -/
def prelimEnd (hints : List Int) (currentYear : Int) : Int :=
  match survivors hints currentYear with
  | [] => 0
  | y :: ys => min currentYear (maxList y ys + 3)

/-- `estimateRelevanceWindow` from services/tmdb.ts.  All surviving years are
at least 1920, so preliminary start and end are positive and integer division
by 2 agrees with `Math.floor`. -/
def estimateRelevanceWindow (hints : List Int) (currentYear : Int) :
    Option RelevanceWindow :=
  match survivors hints currentYear with
  | [] => none
  | _ :: _ =>
    let s := prelimStart hints currentYear
    let e := prelimEnd hints currentYear
    if e - s < 5 then
      let mid := (s + e) / 2
      some ⟨mid - 3, mid + 3⟩
    else
      some ⟨s, e⟩

/-- C4: on hint list [1994] with current year 2024 the estimator produces
the window 1991-1997: preliminary start `max(1950, 1991) = 1991`,
preliminary end `min(2024, 1997) = 1997`, span 6, no recentering. -/
theorem estimator_scenario_c :
    prelimStart [1994] 2024 = 1991 ∧ prelimEnd [1994] 2024 = 1997 ∧
      ¬(prelimEnd [1994] 2024 - prelimStart [1994] 2024 < 5) ∧
      estimateRelevanceWindow [1994] 2024 = some ⟨1991, 1997⟩ := by
  decide

/-- Counterexample to C2: on hint list [2023] with current year 2024 the
recentering branch fires and returns the window 2019-2025, whose end 2025
exceeds the current year 2024, so the returned window is not always within
the interval from 1950 to the current year. -/
theorem relevance_window_recenter_exceeds_current_year :
    estimateRelevanceWindow [2023] 2024 = some ⟨2019, 2025⟩ ∧
      ¬((RelevanceWindow.mk 2019 2025).finish ≤ 2024) := by
  decide

lemma prelimStart_ge (hints : List Int) (Y : Int)
    (h : survivors hints Y ≠ []) : 1950 ≤ prelimStart hints Y := by
  unfold prelimStart
  cases hs : survivors hints Y with
  | nil => exact absurd hs h
  | cons y ys => exact le_max_left _ _

lemma prelimEnd_le (hints : List Int) (Y : Int)
    (h : survivors hints Y ≠ []) : prelimEnd hints Y ≤ Y := by
  unfold prelimEnd
  cases hs : survivors hints Y with
  | nil => exact absurd hs h
  | cons y ys => exact min_le_left _ _

lemma estimateRelevanceWindow_eq (hints : List Int) (Y : Int)
    (h : survivors hints Y ≠ []) :
    estimateRelevanceWindow hints Y =
      if prelimEnd hints Y - prelimStart hints Y < 5 then
        some ⟨(prelimStart hints Y + prelimEnd hints Y) / 2 - 3,
              (prelimStart hints Y + prelimEnd hints Y) / 2 + 3⟩
      else some ⟨prelimStart hints Y, prelimEnd hints Y⟩ := by
  unfold estimateRelevanceWindow
  cases hs : survivors hints Y with
  | nil => exact absurd hs h
  | cons y ys => rfl

/-- C2 (amended): every window the estimator returns satisfies
start ≤ end, and when the minimum-span recentering branch is not taken
(preliminary span at least 5) both bounds lie within 1950 and the current
year; the recentering branch can move either bound outside that interval. -/
theorem relevance_window_bounds (hints : List Int) (Y : Int)
    (w : RelevanceWindow) (h : estimateRelevanceWindow hints Y = some w) :
    w.start ≤ w.finish ∧
      (5 ≤ prelimEnd hints Y - prelimStart hints Y →
        1950 ≤ w.start ∧ w.finish ≤ Y) := by
  have hne : survivors hints Y ≠ [] := by
    intro hnil
    unfold estimateRelevanceWindow at h
    rw [hnil] at h
    exact Option.noConfusion h
  rw [estimateRelevanceWindow_eq hints Y hne] at h
  by_cases hlt : prelimEnd hints Y - prelimStart hints Y < 5
  · rw [if_pos hlt] at h
    have hw := (Option.some.inj h).symm
    subst hw
    dsimp only
    exact ⟨by omega, fun h5 => absurd hlt (by omega)⟩
  · rw [if_neg hlt] at h
    have hw := (Option.some.inj h).symm
    subst hw
    dsimp only
    exact ⟨by omega, fun _ => ⟨prelimStart_ge hints Y hne, prelimEnd_le hints Y hne⟩⟩

/-- Concrete instance of `relevance_window_bounds` at hint list [1994]
and current year 2024. -/
theorem relevance_window_bounds_witness :
    1950 ≤ (RelevanceWindow.mk 1991 1997).start ∧
      (RelevanceWindow.mk 1991 1997).finish ≤ 2024 :=
  (relevance_window_bounds [1994] 2024 ⟨1991, 1997⟩ (by decide)).2 (by decide)

/- ## Era Distribution and Metrics Engine (routes/api.ts, results route) -/

/-- A point of the raw distribution: year, recognition rate, sample size. -/
structure DistributionPoint where
  year : Int
  rate : ℚ
  sampleSize : Nat
deriving DecidableEq, Repr

/-- A point of the smoothed distribution. -/
structure SmoothedPoint where
  year : Int
  rate : ℚ
deriving DecidableEq, Repr

/-- The body of the tally loop for one response: when the celebrity is
found and the year lies in its relevance window, the total count rises by
one, the recognized count by one more when the response was positive. -/
def yearScoreStep (celebrities : List Celebrity) (year : Int)
    (acc : Nat × Nat) (r : Response) : Nat × Nat :=
  match celebrities.find? (fun c => c.id == r.celebrityId) with
  | none => acc
  | some celeb =>
    if celeb.relevance_window.start ≤ year ∧ year ≤ celeb.relevance_window.finish
    then ((if r.recognized then acc.1 + 1 else acc.1), acc.2 + 1)
    else acc

/-- The per-year tally `yearScores[year]` as the pair
(recognizedCount, totalCount), accumulated over every response. -/
def yearScore (celebrities : List Celebrity) (responses : List Response)
    (year : Int) : Nat × Nat :=
  responses.foldl (yearScoreStep celebrities year) (0, 0)

/-- The calendar years the tally covers, 1950 up to the current year;
empty when the current year precedes 1950. -/
def yearsRange (currentYear : Int) : List Int :=
  (List.range (currentYear - 1949).toNat).map (fun (i : Nat) => 1950 + (i : Int))

/-- The raw distribution: one point per year of the tally range whose total
count is positive, carrying the recognition fraction and the sample size. -/
def distribution (celebrities : List Celebrity) (responses : List Response)
    (currentYear : Int) : List DistributionPoint :=
  (yearsRange currentYear).filterMap (fun year =>
    let scores := yearScore celebrities responses year
    if 0 < scores.2 then
      some ⟨year, (scores.1 : ℚ) / (scores.2 : ℚ), scores.2⟩
    else none)

/-- Point used by the out-of-range default of list indexing; never reached
for indices inside the smoothing window. -/
def defaultPoint : DistributionPoint := ⟨0, 0, 0⟩

/-- The body of the smoothing window loop at index `j`: accumulate
rate times sample size into the weighted sum, sample size into the weight. -/
def windowStep (dist : List DistributionPoint) (acc : ℚ × ℚ) (j : Nat) : ℚ × ℚ :=
  let p := dist.getD j defaultPoint
  (acc.1 + p.rate * (p.sampleSize : ℚ), acc.2 + (p.sampleSize : ℚ))

/-- The weighted sum and total weight accumulated over window indices
`lo` to `hi` of the raw distribution, weights being sample sizes. -/
def windowSums (dist : List DistributionPoint) (lo hi : Nat) : ℚ × ℚ :=
  ((List.range (hi + 1 - lo)).map (fun k => lo + k)).foldl (windowStep dist) (0, 0)

/-- The smoothed point at index `i`: a 5-year symmetric weighted moving
average, window indices clamped to the array bounds, rate 0 when the
window weight sum is 0. -/
def smoothPoint (dist : List DistributionPoint) (i : Nat) : SmoothedPoint :=
  let half : Nat := 2
  let windowStart := i - half
  let windowEnd := min (dist.length - 1) (i + half)
  let sums := windowSums dist windowStart windowEnd
  ⟨(dist.getD i defaultPoint).year,
   if 0 < sums.2 then sums.1 / sums.2 else 0⟩

/-- The smoothed distribution: the moving average applied at every index. -/
def smoothed (dist : List DistributionPoint) : List SmoothedPoint :=
  (List.range dist.length).map (fun i => smoothPoint dist i)

/-- `Math.round` of JavaScript: round to the nearest integer, halves
going toward positive infinity. -/
def jsRound (x : ℚ) : Int := Rat.floor (x + 1/2)

/-- `Math.max(...distribution.map(d => d.rate), 0.01)`. -/
def peakRate (dist : List DistributionPoint) : ℚ :=
  (dist.map (fun d => d.rate)).foldl max (1/100)

/-- Half the peak rate. -/
def threshold (dist : List DistributionPoint) : ℚ := peakRate dist * (1/2)

/-- Years of the raw distribution whose rate reaches the threshold. -/
def yearsAboveThreshold (dist : List DistributionPoint) : List Int :=
  (dist.filter (fun d => decide (threshold dist ≤ d.rate))).map (fun d => d.year)

/-- The breadth metric: the span of the years above the threshold,
0 when there is no such year. -/
def breadth (dist : List DistributionPoint) : Int :=
  match yearsAboveThreshold dist with
  | [] => 0
  | y :: ys => maxList y ys - minList y ys

/-- The running (weightedYearSum, totalWeight) pair of the center-of-gravity
loop, weights being raw rate times sample size. -/
def cogWeights (dist : List DistributionPoint) : ℚ × ℚ :=
  dist.foldl (fun acc point =>
    let weight := point.rate * (point.sampleSize : ℚ)
    (acc.1 + (point.year : ℚ) * weight, acc.2 + weight)) (0, 0)

/-- The center-of-gravity metric: the rounded weighted mean year, the
current year when the total weight is not positive. -/
def centerOfGravity (dist : List DistributionPoint) (currentYear : Int) : Int :=
  let sums := cogWeights dist
  if 0 < sums.2 then jsRound (sums.1 / sums.2) else currentYear

/-- The overall recognition fraction before scaling to a percentage. -/
def overallRate (responses : List Response) : ℚ :=
  if 0 < responses.length then
    ((responses.filter (fun r => r.recognized)).length : ℚ) / (responses.length : ℚ)
  else 0

/-- Mean smoothed rate over years before 2000, 0 when none. -/
def pre2000Avg (sm : List SmoothedPoint) : ℚ :=
  let pre := sm.filter (fun d => decide (d.year < 2000))
  if 0 < pre.length then
    (pre.foldl (fun s d => s + d.rate) 0) / (pre.length : ℚ)
  else 0

/-- Mean smoothed rate over years 2000 and later, 0 when none. -/
def post2000Avg (sm : List SmoothedPoint) : ℚ :=
  let post := sm.filter (fun d => decide (2000 ≤ d.year))
  if 0 < post.length then
    (post.foldl (fun s d => s + d.rate) 0) / (post.length : ℚ)
  else 0

/-- The nostalgia index before rounding: pre-2000 mean over post-2000 mean,
1 when the post-2000 mean is not positive. -/
def nostalgiaIndex (sm : List SmoothedPoint) : ℚ :=
  if 0 < post2000Avg sm then pre2000Avg sm / post2000Avg sm else 1

/-- The decade label of a year, for example the string for 1990 followed
by the letter s. -/
def decadeLabel (year : Int) : String := toString (year / 10 * 10) ++ "s"

/-- One `decadeRates[decade]++ / += rate` update of the insertion-ordered
decade table: bump the existing entry, or append a fresh one. -/
def bumpDecade (m : List (String × Nat × ℚ)) (d : String) (r : ℚ) :
    List (String × Nat × ℚ) :=
  if m.any (fun e => e.1 == d) then
    m.map (fun e => if e.1 == d then (e.1, e.2.1 + 1, e.2.2 + r) else e)
  else m ++ [(d, 1, r)]

/-- The decade table built from the smoothed distribution, in insertion
order, each entry carrying (count of member years, sum of their rates). -/
def decadeRates (sm : List SmoothedPoint) : List (String × Nat × ℚ) :=
  sm.foldl (fun m p => bumpDecade m (decadeLabel p.year) p.rate) []

/-- The guarded per-decade mean rate. -/
def decadeAvg (total : Nat) (sum : ℚ) : ℚ :=
  if 0 < total then sum / (total : ℚ) else 0

/-- The peak-decade loop: start from the 1990s at rate 0 and replace the
candidate whenever a strictly larger mean rate is encountered. -/
def peakDecade (sm : List SmoothedPoint) : String :=
  ((decadeRates sm).foldl (fun acc e =>
    let avgRate := decadeAvg e.2.1 e.2.2
    if avgRate > acc.2 then (e.1, avgRate) else acc) ("1990s", (0 : ℚ))).1

/-- The breadth formula as the specification words it, over an arbitrary
series of (year, rate) points: peak rate is the maximum rate floored at
1/100, the threshold is half the peak, and the result is the span between
the largest and smallest year whose rate reaches the threshold, 0 when
there is no such year. -/
def specBreadth (pts : List (Int × ℚ)) : Int :=
  let peak := max (((pts.map Prod.snd).max?).getD (1/100)) (1/100)
  let thr := peak / 2
  let ys := (pts.filter (fun p => decide (thr ≤ p.2))).map Prod.fst
  match ys.max?, ys.min? with
  | some hi, some lo => hi - lo
  | _, _ => 0

lemma foldl_max_shift (l : List ℚ) : ∀ a b : ℚ,
    l.foldl max (max a b) = max a (l.foldl max b) := by
  induction l with
  | nil => intro a b; rfl
  | cons y t ih =>
    intro a b
    show t.foldl max (max (max a b) y) = max a (t.foldl max (max b y))
    rw [max_assoc, ih]

lemma foldl_max_getD (l : List ℚ) (a : ℚ) :
    l.foldl max a = max (l.max?.getD a) a := by
  cases l with
  | nil => simp
  | cons x t =>
    show t.foldl max (max a x) = max ((some (t.foldl max x)).getD a) a
    rw [foldl_max_shift, Option.getD_some, max_comm]

lemma years_filter_eq (dist : List DistributionPoint) (t : ℚ) :
    ((dist.map (fun p => ((p.year : Int), p.rate))).filter
        (fun p => decide (t ≤ p.2))).map Prod.fst
      = (dist.filter (fun d => decide (t ≤ d.rate))).map (fun d => d.year) := by
  rw [List.filter_map, List.map_map]
  exact rfl

/-- Counterexample to C1: with figures active in 1950 (recognized) and 1952
(not recognized) at current year 1953, the code computes breadth 0 from the
raw distribution, while the specification formula applied to the smoothed
series yields 2, so breadth is not computed over the smoothed series. -/
theorem breadth_smoothed_claim_false :
    breadth (distribution
        [⟨1, "A", "a", ⟨1950, 1950⟩, "Actor", 50, []⟩,
         ⟨2, "B", "b", ⟨1952, 1952⟩, "Actor", 50, []⟩]
        [⟨1, true⟩, ⟨2, false⟩] 1953) = 0 ∧
    specBreadth ((smoothed (distribution
        [⟨1, "A", "a", ⟨1950, 1950⟩, "Actor", 50, []⟩,
         ⟨2, "B", "b", ⟨1952, 1952⟩, "Actor", 50, []⟩]
        [⟨1, true⟩, ⟨2, false⟩] 1953)).map (fun q => (q.year, q.rate))) = 2 := by
  have hd : distribution
      [⟨1, "A", "a", ⟨1950, 1950⟩, "Actor", 50, []⟩,
       ⟨2, "B", "b", ⟨1952, 1952⟩, "Actor", 50, []⟩]
      [⟨1, true⟩, ⟨2, false⟩] 1953 = [⟨1950, 1, 1⟩, ⟨1952, 0, 1⟩] := by
    have h : yearsRange 1953 = [1950, 1951, 1952, 1953] := rfl
    have h0 : yearScore
        [⟨1, "A", "a", ⟨1950, 1950⟩, "Actor", 50, []⟩,
         ⟨2, "B", "b", ⟨1952, 1952⟩, "Actor", 50, []⟩]
        [⟨1, true⟩, ⟨2, false⟩] 1950 = (1, 1) := rfl
    have h1 : yearScore
        [⟨1, "A", "a", ⟨1950, 1950⟩, "Actor", 50, []⟩,
         ⟨2, "B", "b", ⟨1952, 1952⟩, "Actor", 50, []⟩]
        [⟨1, true⟩, ⟨2, false⟩] 1951 = (0, 0) := rfl
    have h2 : yearScore
        [⟨1, "A", "a", ⟨1950, 1950⟩, "Actor", 50, []⟩,
         ⟨2, "B", "b", ⟨1952, 1952⟩, "Actor", 50, []⟩]
        [⟨1, true⟩, ⟨2, false⟩] 1952 = (0, 1) := rfl
    have h3 : yearScore
        [⟨1, "A", "a", ⟨1950, 1950⟩, "Actor", 50, []⟩,
         ⟨2, "B", "b", ⟨1952, 1952⟩, "Actor", 50, []⟩]
        [⟨1, true⟩, ⟨2, false⟩] 1953 = (0, 0) := rfl
    simp only [distribution, h, List.filterMap_cons, List.filterMap_nil, h0, h1, h2, h3]
    norm_num
  rw [hd]
  have hs : smoothed [⟨1950, 1, 1⟩, ⟨1952, 0, 1⟩] = [⟨1950, 1/2⟩, ⟨1952, 1/2⟩] := by
    simp only [smoothed, smoothPoint, windowSums]
    norm_num [List.range_succ, windowStep, defaultPoint]
  rw [hs]
  constructor
  · have hp : peakRate [⟨1950, 1, 1⟩, ⟨1952, 0, 1⟩] = 1 := by
      simp only [peakRate, List.map_cons, List.map_nil, List.foldl_cons, List.foldl_nil]
      norm_num
    have ht : threshold [⟨1950, 1, 1⟩, ⟨1952, 0, 1⟩] = 1/2 := by
      rw [threshold, hp]; norm_num
    simp only [breadth, yearsAboveThreshold, ht]
    norm_num [minList, maxList]
  · simp only [List.map_cons, List.map_nil]
    simp only [specBreadth]
    norm_num [List.max?, List.min?]

/-- C1 (amended): the breadth metric is computed over the raw distribution:
peak rate is the maximum raw rate floored at 1/100, the threshold is half
the peak, and breadth is the span of the years whose raw rate reaches the
threshold, 0 when there is none. -/
theorem breadth_matches_spec_on_raw (dist : List DistributionPoint) :
    breadth dist = specBreadth (dist.map (fun p => ((p.year : Int), p.rate))) := by
  have hpk : max (((dist.map (fun p => ((p.year : Int), p.rate))).map
      Prod.snd).max?.getD (1/100)) (1/100) = peakRate dist := by
    rw [List.map_map, peakRate, foldl_max_getD]
    exact rfl
  have hthr : peakRate dist / 2 = threshold dist := by
    rw [threshold, mul_one_div]
  simp only [specBreadth, hpk, hthr, years_filter_eq]
  unfold breadth yearsAboveThreshold
  cases hl : (dist.filter (fun d => decide (threshold dist ≤ d.rate))).map
      (fun d => d.year) with
  | nil => rfl
  | cons y t => rfl

lemma yearScoreStep_mono (cs : List Celebrity) (year : Int)
    (acc : Nat × Nat) (r : Response) (h : acc.1 ≤ acc.2) :
    (yearScoreStep cs year acc r).1 ≤ (yearScoreStep cs year acc r).2 := by
  unfold yearScoreStep
  cases cs.find? (fun c => c.id == r.celebrityId) with
  | none => exact h
  | some celeb =>
    dsimp only
    split
    · dsimp only
      split <;> omega
    · exact h

lemma yearScore_fold_le (cs : List Celebrity) (year : Int) :
    ∀ (rs : List Response) (acc : Nat × Nat), acc.1 ≤ acc.2 →
      (rs.foldl (yearScoreStep cs year) acc).1 ≤
        (rs.foldl (yearScoreStep cs year) acc).2 := by
  intro rs
  induction rs with
  | nil => intro acc h; exact h
  | cons r t ih =>
    intro acc h
    simp only [List.foldl_cons]
    exact ih _ (yearScoreStep_mono cs year acc r h)

lemma yearScore_le (cs : List Celebrity) (rs : List Response) (year : Int) :
    (yearScore cs rs year).1 ≤ (yearScore cs rs year).2 :=
  yearScore_fold_le cs year rs (0, 0) (Nat.le_refl 0)

lemma distribution_rate_bounds (cs : List Celebrity) (rs : List Response)
    (Y : Int) : ∀ p ∈ distribution cs rs Y, 0 ≤ p.rate ∧ p.rate ≤ 1 := by
  intro p hp
  unfold distribution at hp
  rw [List.mem_filterMap] at hp
  obtain ⟨year, hy, hf⟩ := hp
  dsimp only at hf
  split at hf
  · next h2 =>
    cases hf
    dsimp only
    constructor
    · exact div_nonneg (Nat.cast_nonneg _) (Nat.cast_nonneg _)
    · rw [div_le_one (by exact_mod_cast h2)]
      exact_mod_cast yearScore_le cs rs year
  · exact Option.noConfusion hf

lemma distribution_year_bounds (cs : List Celebrity) (rs : List Response)
    (Y : Int) : ∀ p ∈ distribution cs rs Y, 1950 ≤ p.year ∧ p.year ≤ Y := by
  intro p hp
  unfold distribution at hp
  rw [List.mem_filterMap] at hp
  obtain ⟨year, hy, hf⟩ := hp
  have hyr : 1950 ≤ year ∧ year ≤ Y := by
    unfold yearsRange at hy
    rw [List.mem_map] at hy
    obtain ⟨a, ha, he⟩ := hy
    rw [List.mem_range] at ha
    have he2 : 1950 + (a : Int) = year := he
    omega
  dsimp only at hf
  split at hf
  · cases hf
    exact hyr
  · exact Option.noConfusion hf

lemma getD_rate_bounds (dist : List DistributionPoint)
    (hdist : ∀ p ∈ dist, 0 ≤ p.rate ∧ p.rate ≤ 1) (j : Nat) :
    0 ≤ (dist.getD j defaultPoint).rate ∧ (dist.getD j defaultPoint).rate ≤ 1 := by
  rcases h : dist.get? j with _ | p
  · rw [List.getD_eq_get?, h]
    norm_num [defaultPoint]
  · rw [List.getD_eq_get?, h]
    exact hdist p (List.get?_mem h)

lemma windowStep_bounds (dist : List DistributionPoint)
    (hdist : ∀ p ∈ dist, 0 ≤ p.rate ∧ p.rate ≤ 1) (acc : ℚ × ℚ) (j : Nat)
    (h0 : 0 ≤ acc.1) (h1 : acc.1 ≤ acc.2) :
    0 ≤ (windowStep dist acc j).1 ∧
      (windowStep dist acc j).1 ≤ (windowStep dist acc j).2 := by
  obtain ⟨hr0, hr1⟩ := getD_rate_bounds dist hdist j
  unfold windowStep
  dsimp only
  have hn : (0 : ℚ) ≤ ((dist.getD j defaultPoint).sampleSize : ℚ) := Nat.cast_nonneg _
  constructor
  · exact add_nonneg h0 (mul_nonneg hr0 hn)
  · exact add_le_add h1 (mul_le_of_le_one_left hn hr1)

lemma windowFold_bounds (dist : List DistributionPoint)
    (hdist : ∀ p ∈ dist, 0 ≤ p.rate ∧ p.rate ≤ 1) :
    ∀ (js : List Nat) (acc : ℚ × ℚ), 0 ≤ acc.1 → acc.1 ≤ acc.2 →
      0 ≤ (js.foldl (windowStep dist) acc).1 ∧
        (js.foldl (windowStep dist) acc).1 ≤ (js.foldl (windowStep dist) acc).2 := by
  intro js
  induction js with
  | nil => intro acc h0 h1; exact ⟨h0, h1⟩
  | cons j t ih =>
    intro acc h0 h1
    simp only [List.foldl_cons]
    obtain ⟨g0, g1⟩ := windowStep_bounds dist hdist acc j h0 h1
    exact ih _ g0 g1

lemma windowSums_bounds (dist : List DistributionPoint)
    (hdist : ∀ p ∈ dist, 0 ≤ p.rate ∧ p.rate ≤ 1) (lo hi : Nat) :
    0 ≤ (windowSums dist lo hi).1 ∧
      (windowSums dist lo hi).1 ≤ (windowSums dist lo hi).2 := by
  unfold windowSums
  exact windowFold_bounds dist hdist _ (0, 0) (le_refl 0) (le_refl 0)

lemma smoothPoint_rate_bounds (dist : List DistributionPoint)
    (hdist : ∀ p ∈ dist, 0 ≤ p.rate ∧ p.rate ≤ 1) (i : Nat) :
    0 ≤ (smoothPoint dist i).rate ∧ (smoothPoint dist i).rate ≤ 1 := by
  obtain ⟨h0, h1⟩ := windowSums_bounds dist hdist (i - 2) (min (dist.length - 1) (i + 2))
  unfold smoothPoint
  dsimp only
  split
  · next hpos =>
    exact ⟨div_nonneg h0 (le_of_lt hpos), (div_le_one hpos).mpr h1⟩
  · next => norm_num

lemma smoothed_rate_bounds (dist : List DistributionPoint)
    (hdist : ∀ p ∈ dist, 0 ≤ p.rate ∧ p.rate ≤ 1) :
    ∀ q ∈ smoothed dist, 0 ≤ q.rate ∧ q.rate ≤ 1 := by
  intro q hq
  unfold smoothed at hq
  rw [List.mem_map] at hq
  obtain ⟨i, hi, rfl⟩ := hq
  exact smoothPoint_rate_bounds dist hdist i

lemma smoothed_year_bounds (cs : List Celebrity) (rs : List Response) (Y : Int) :
    ∀ q ∈ smoothed (distribution cs rs Y), 1950 ≤ q.year ∧ q.year ≤ Y := by
  intro q hq
  unfold smoothed at hq
  rw [List.mem_map] at hq
  obtain ⟨i, hi, rfl⟩ := hq
  rw [List.mem_range] at hi
  unfold smoothPoint
  dsimp only
  rcases h : (distribution cs rs Y).get? i with _ | p
  · rw [List.get?_eq_none] at h
    omega
  · rw [List.getD_eq_get?, h]
    exact distribution_year_bounds cs rs Y p (List.get?_mem h)

/-- C6: for every set of figures, answers and current year, every rate of
the raw distribution and every rate of the smoothed distribution lies in
the closed unit interval. -/
theorem rates_in_unit_interval (cs : List Celebrity) (rs : List Response)
    (Y : Int) :
    (∀ p ∈ distribution cs rs Y, 0 ≤ p.rate ∧ p.rate ≤ 1) ∧
    (∀ q ∈ smoothed (distribution cs rs Y), 0 ≤ q.rate ∧ q.rate ≤ 1) :=
  ⟨distribution_rate_bounds cs rs Y,
   smoothed_rate_bounds (distribution cs rs Y) (distribution_rate_bounds cs rs Y)⟩

/-- Concrete instance of `rates_in_unit_interval`: one figure active in
1950 recognized at current year 1950. -/
theorem rates_in_unit_interval_witness :
    0 ≤ (DistributionPoint.mk 1950 1 1).rate ∧
      (DistributionPoint.mk 1950 1 1).rate ≤ 1 :=
  (rates_in_unit_interval [⟨1, "A", "a", ⟨1950, 1950⟩, "Actor", 50, []⟩]
      [⟨1, true⟩] 1950).1 ⟨1950, 1, 1⟩ (by
    have hd : distribution [⟨1, "A", "a", ⟨1950, 1950⟩, "Actor", 50, []⟩]
        [⟨1, true⟩] 1950 = [⟨1950, 1, 1⟩] := by
      have h : yearsRange 1950 = [1950] := rfl
      have h0 : yearScore [⟨1, "A", "a", ⟨1950, 1950⟩, "Actor", 50, []⟩]
          [⟨1, true⟩] 1950 = (1, 1) := rfl
      simp only [distribution, h, List.filterMap_cons, List.filterMap_nil, h0]
      norm_num
    rw [hd]
    exact List.mem_singleton.mpr rfl)

/-- C9: every year appearing in the raw distribution, and hence in the
smoothed distribution, lies between 1950 and the current year; window years
outside that range are skipped by the tally and contribute to no point. -/
theorem distribution_years_in_range (cs : List Celebrity) (rs : List Response)
    (Y : Int) :
    (∀ p ∈ distribution cs rs Y, 1950 ≤ p.year ∧ p.year ≤ Y) ∧
    (∀ q ∈ smoothed (distribution cs rs Y), 1950 ≤ q.year ∧ q.year ≤ Y) :=
  ⟨distribution_year_bounds cs rs Y, smoothed_year_bounds cs rs Y⟩

/-- Concrete instance of `distribution_years_in_range`: a figure whose
window 1950-1960 extends past the current year 1951 yields only the years
1950 and 1951, both inside the range. -/
theorem distribution_years_in_range_witness :
    1950 ≤ (DistributionPoint.mk 1951 0 1).year ∧
      (DistributionPoint.mk 1951 0 1).year ≤ 1951 :=
  (distribution_years_in_range [⟨7, "C", "c", ⟨1950, 1960⟩, "Actor", 50, []⟩]
      [⟨7, false⟩] 1951).1 ⟨1951, 0, 1⟩ (by
    have hd : distribution [⟨7, "C", "c", ⟨1950, 1960⟩, "Actor", 50, []⟩]
        [⟨7, false⟩] 1951 = [⟨1950, 0, 1⟩, ⟨1951, 0, 1⟩] := by
      have h : yearsRange 1951 = [1950, 1951] := rfl
      have h0 : yearScore [⟨7, "C", "c", ⟨1950, 1960⟩, "Actor", 50, []⟩]
          [⟨7, false⟩] 1950 = (0, 1) := rfl
      have h1 : yearScore [⟨7, "C", "c", ⟨1950, 1960⟩, "Actor", 50, []⟩]
          [⟨7, false⟩] 1951 = (0, 1) := rfl
      simp only [distribution, h, List.filterMap_cons, List.filterMap_nil, h0, h1]
      norm_num
    rw [hd]
    exact List.mem_cons_of_mem _ (List.mem_singleton.mpr rfl))

/-- The center of gravity as the specification words it: the weighted mean
year over the raw distribution with rate times sample size as the weight of
each year, rounded to the nearest integer, the current year when the total
weight is 0. -/
def specCenterOfGravity (dist : List DistributionPoint) (currentYear : Int) : Int :=
  let w := fun (p : DistributionPoint) => p.rate * (p.sampleSize : ℚ)
  let totalWeight := (dist.map w).sum
  if totalWeight = 0 then currentYear
  else jsRound ((dist.map (fun p => (p.year : ℚ) * w p)).sum / totalWeight)

lemma foldl_pair_sum {α : Type} (f g : α → ℚ) (l : List α) :
    ∀ a b : ℚ, l.foldl (fun acc x => (acc.1 + f x, acc.2 + g x)) (a, b)
      = (a + (l.map f).sum, b + (l.map g).sum) := by
  induction l with
  | nil => intro a b; simp
  | cons x t ih =>
    intro a b
    simp only [List.foldl_cons, List.map_cons, List.sum_cons]
    rw [ih, Prod.mk.injEq]
    constructor <;> ring

lemma cogWeights_eq (dist : List DistributionPoint) :
    cogWeights dist =
      ((dist.map (fun p => (p.year : ℚ) * (p.rate * (p.sampleSize : ℚ)))).sum,
       (dist.map (fun p => p.rate * (p.sampleSize : ℚ))).sum) := by
  show dist.foldl (fun acc p =>
      (acc.1 + (p.year : ℚ) * (p.rate * (p.sampleSize : ℚ)),
       acc.2 + p.rate * (p.sampleSize : ℚ))) (0, 0) = _
  rw [foldl_pair_sum]
  simp

lemma total_weight_nonneg (cs : List Celebrity) (rs : List Response) (Y : Int) :
    0 ≤ ((distribution cs rs Y).map (fun p => p.rate * (p.sampleSize : ℚ))).sum := by
  apply List.sum_nonneg
  intro x hx
  rw [List.mem_map] at hx
  obtain ⟨p, hp, rfl⟩ := hx
  exact mul_nonneg (distribution_rate_bounds cs rs Y p hp).1 (Nat.cast_nonneg _)

/-- C7: for every set of figures, answers and current year, the center of
gravity equals the weighted mean year over the raw distribution with rate
times sample size as the weight of each year, rounded to the nearest
integer, and equals the current year when the total weight is 0. -/
theorem centerOfGravity_matches_spec (cs : List Celebrity) (rs : List Response)
    (Y : Int) :
    centerOfGravity (distribution cs rs Y) Y
      = specCenterOfGravity (distribution cs rs Y) Y := by
  unfold centerOfGravity specCenterOfGravity
  rw [cogWeights_eq]
  dsimp only
  by_cases h : ((distribution cs rs Y).map (fun p => p.rate * (p.sampleSize : ℚ))).sum = 0
  · rw [if_neg (by rw [h]; exact lt_irrefl 0), if_pos h]
  · rw [if_pos (lt_of_le_of_ne (total_weight_nonneg cs rs Y) (Ne.symm h)), if_neg h]

/-- C8: the metrics computation is total and each division it performs is
guarded: a zero smoothing weight sum yields rate 0, a zero decade count
yields mean 0, a zero center-of-gravity weight yields the current year, an
empty answer list yields overall rate 0, and a zero post-2000 mean yields
nostalgia index 1. -/
theorem metrics_division_guards (cs : List Celebrity) (rs : List Response)
    (Y : Int) (dist : List DistributionPoint) (i : Nat) (q : ℚ) :
    ((windowSums dist (i - 2) (min (dist.length - 1) (i + 2))).2 = 0 →
      (smoothPoint dist i).rate = 0) ∧
    (decadeAvg 0 q = 0) ∧
    ((cogWeights (distribution cs rs Y)).2 = 0 →
      centerOfGravity (distribution cs rs Y) Y = Y) ∧
    (rs = [] → overallRate rs = 0) ∧
    (post2000Avg (smoothed (distribution cs rs Y)) = 0 →
      nostalgiaIndex (smoothed (distribution cs rs Y)) = 1) := by
  refine ⟨?_, ?_, ?_, ?_, ?_⟩
  · intro h
    unfold smoothPoint
    dsimp only
    rw [h]
    norm_num
  · unfold decadeAvg
    norm_num
  · intro h
    unfold centerOfGravity
    dsimp only
    rw [h]
    norm_num
  · intro h
    subst h
    rfl
  · intro h
    unfold nostalgiaIndex
    rw [h]
    norm_num

/-- Concrete instance of `metrics_division_guards` on the empty session at
current year 1949, where every guarded denominator is 0. -/
theorem metrics_division_guards_witness :
    (smoothPoint [] 0).rate = 0 ∧ decadeAvg 0 5 = 0 ∧
      centerOfGravity (distribution [] [] 1949) 1949 = 1949 ∧
      overallRate [] = 0 ∧
      nostalgiaIndex (smoothed (distribution [] [] 1949)) = 1 := by
  have h := metrics_division_guards [] [] 1949 [] 0 5
  refine ⟨h.1 ?_, h.2.1, h.2.2.1 ?_, h.2.2.2.1 rfl, h.2.2.2.2 ?_⟩
  · norm_num [windowSums, windowStep, defaultPoint, List.range_succ]
  · rfl
  · rfl

lemma le_foldl_max (l : List ℚ) : ∀ a : ℚ, a ≤ l.foldl max a := by
  induction l with
  | nil => intro a; exact le_refl a
  | cons x t ih => intro a; exact le_trans (le_max_left a x) (ih (max a x))

lemma foldl_max_attained (l : List ℚ) :
    ∀ a : ℚ, l.foldl max a = a ∨ l.foldl max a ∈ l := by
  induction l with
  | nil => intro a; exact Or.inl rfl
  | cons x t ih =>
    intro a
    have hc : (x :: t).foldl max a = t.foldl max (max a x) := rfl
    rcases ih (max a x) with h | h
    · rcases le_total x a with hxa | hax
      · rw [hc, h, max_eq_left hxa]
        exact Or.inl rfl
      · rw [hc, h, max_eq_right hax]
        exact Or.inr (List.mem_cons_self x t)
    · rw [hc]
      exact Or.inr (List.mem_cons_of_mem x h)

lemma pick_fold_spec (l : List (String × ℚ)) :
    ∀ acc : String × ℚ,
      l.foldl (fun a m => if m.2 > a.2 then m else a) acc =
        if acc.2 < (l.map Prod.snd).foldl max acc.2 then
          (l.find? (fun m => m.2 == (l.map Prod.snd).foldl max acc.2)).getD acc
        else acc := by
  induction l with
  | nil =>
    intro acc
    simp only [List.map_nil, List.foldl_nil, List.find?_nil]
    rw [if_neg (lt_irrefl acc.2)]
  | cons m t ih =>
    intro acc
    simp only [List.foldl_cons, List.map_cons]
    by_cases hgt : m.2 > acc.2
    · rw [if_pos hgt, max_eq_right (le_of_lt hgt), ih m]
      have hmle : m.2 ≤ (t.map Prod.snd).foldl max m.2 := le_foldl_max _ _
      have hcond : acc.2 < (t.map Prod.snd).foldl max m.2 := lt_of_lt_of_le hgt hmle
      rw [if_pos hcond]
      by_cases hlt : m.2 < (t.map Prod.snd).foldl max m.2
      · rw [if_pos hlt, List.find?_cons_of_neg _ (by
          simp only [beq_iff_eq]
          exact ne_of_lt hlt)]
        have hatt : (t.map Prod.snd).foldl max m.2 ∈ t.map Prod.snd := by
          rcases foldl_max_attained (t.map Prod.snd) m.2 with h | h
          · exact absurd h (ne_of_gt hlt)
          · exact h
        obtain ⟨e, he, hee⟩ := List.mem_map.mp hatt
        rcases hfind : t.find? (fun x => x.2 == (t.map Prod.snd).foldl max m.2)
            with _ | v
        · rw [List.find?_eq_none] at hfind
          exact absurd (beq_iff_eq.mpr hee) (hfind e he)
        · rw [hfind, Option.getD_some, Option.getD_some]
      · have heq : (t.map Prod.snd).foldl max m.2 = m.2 :=
          le_antisymm (not_lt.mp hlt) hmle
        rw [if_neg hlt, List.find?_cons_of_pos _ (by simp [heq])]
        rfl
    · rw [if_neg hgt, max_eq_left (not_lt.mp hgt), ih acc]
      by_cases hc : acc.2 < (t.map Prod.snd).foldl max acc.2
      · rw [if_pos hc, if_pos hc, List.find?_cons_of_neg _ (by
          simp only [beq_iff_eq]
          exact ne_of_lt (lt_of_le_of_lt (not_lt.mp hgt) hc))]
      · rw [if_neg hc, if_neg hc]

/-- The peak decade as C10 words it: the default when no decade has a mean
rate above 0 (in particular when the smoothed distribution is empty), and
otherwise the first entry of the insertion-ordered decade table whose mean
rate attains the maximum. -/
def specPeakDecade (sm : List SmoothedPoint) : String :=
  let means := (decadeRates sm).map (fun e => (e.1, decadeAvg e.2.1 e.2.2))
  let maxMean := (means.map Prod.snd).foldl max 0
  if 0 < maxMean then
    match means.find? (fun m => m.2 == maxMean) with
    | some m => m.1
    | none => "1990s"
  else "1990s"

lemma peakDecade_eq_fold (sm : List SmoothedPoint) :
    peakDecade sm =
      (((decadeRates sm).map (fun e => (e.1, decadeAvg e.2.1 e.2.2))).foldl
        (fun a m => if m.2 > a.2 then m else a) ("1990s", (0 : ℚ))).1 := by
  unfold peakDecade
  rw [List.foldl_map]

lemma peakDecade_eq_spec (sm : List SmoothedPoint) :
    peakDecade sm = specPeakDecade sm := by
  rw [peakDecade_eq_fold, pick_fold_spec]
  unfold specPeakDecade
  dsimp only
  by_cases h : (0 : ℚ) < (((decadeRates sm).map
      (fun e => (e.1, decadeAvg e.2.1 e.2.2))).map Prod.snd).foldl max 0
  · rw [if_pos h, if_pos h]
    cases hf : ((decadeRates sm).map (fun e => (e.1, decadeAvg e.2.1 e.2.2))).find?
        (fun m => m.2 == (((decadeRates sm).map
          (fun e => (e.1, decadeAvg e.2.1 e.2.2))).map Prod.snd).foldl max 0) with
    | none => rfl
    | some m => rfl
  · rw [if_neg h, if_neg h]

/-- C10: for every set of figures and answers, the peak decade defaults to
the 1990s when the smoothed distribution is empty or no decade has a mean
smoothed rate above 0, and is otherwise the first-encountered decade whose
mean smoothed rate is maximal. -/
theorem peakDecade_matches_spec (cs : List Celebrity) (rs : List Response)
    (Y : Int) :
    peakDecade (smoothed (distribution cs rs Y))
      = specPeakDecade (smoothed (distribution cs rs Y)) :=
  peakDecade_eq_spec _

/- ## Session State Machine (frontend App.tsx, backend respond route) -/

/-- The four session statuses of the frontend game state. -/
inductive Status
  | intro
  | playing
  | reveal
  | results
deriving DecidableEq, Repr

/-- The frontend `GameState` record from types.ts. -/
structure GameState where
  sessionId : Option String
  status : Status
  celebrities : List Celebrity
  currentIndex : Nat
  responses : List Response
  currentCelebrity : Option Celebrity
  lastResponse : Option Bool
deriving DecidableEq, Repr

/-- JavaScript `Map.set`: overwrite the entry of an existing key in place,
otherwise append a fresh entry at the end. -/
def mapSet (m : List (Int × Bool)) (k : Int) (v : Bool) : List (Int × Bool) :=
  if m.any (fun e => e.1 == k) then
    m.map (fun e => if e.1 == k then (k, v) else e)
  else m ++ [(k, v)]

/-- JavaScript `Map.get`: the value of the first entry carrying the key. -/
def mapGet (m : List (Int × Bool)) (k : Int) : Option Bool :=
  (m.find? (fun e => e.1 == k)).map (fun e => e.2)

/-- `submitResponse` from the frontend: record the answer for the current
celebrity in the local response map and switch the status to reveal; a
no-op when no current celebrity is set. -/
def submitResponse (recognized : Bool) (s : GameState)
    (localResponses : List (Int × Bool)) : GameState × List (Int × Bool) :=
  match s.currentCelebrity with
  | none => (s, localResponses)
  | some c =>
    ({ s with status := Status.reveal, lastResponse := some recognized },
     mapSet localResponses c.id recognized)

lemma mapGet_mapSet_self (m : List (Int × Bool)) (k : Int) (v : Bool) :
    mapGet (mapSet m k v) k = some v := by
  unfold mapSet mapGet
  by_cases hany : m.any (fun e => e.1 == k) = true
  · rw [if_pos hany, List.find?_map]
    have hpf : ((fun (e : Int × Bool) => e.1 == k) ∘
        (fun e => if e.1 == k then (k, v) else e)) = fun e => e.1 == k := by
      funext e
      by_cases he : e.1 = k
      · simp [he]
      · simp [he]
    rw [hpf]
    obtain ⟨e0, he0, hp0⟩ := List.any_eq_true.mp hany
    rcases hf : m.find? (fun e => e.1 == k) with _ | e1
    · rw [List.find?_eq_none] at hf
      exact absurd hp0 (hf e0 he0)
    · have hp0x := List.find?_some hf
      have hp1 : (e1.1 == k) = true := hp0x
      rw [hf]
      show some (if (e1.1 == k) = true then (k, v) else e1).2 = some v
      rw [if_pos hp1]
  · rw [if_neg hany, List.find?_append]
    have hnone : m.find? (fun e => e.1 == k) = none := by
      rw [List.find?_eq_none]
      intro x hx hpx
      exact hany (List.any_eq_true.mpr ⟨x, hx, hpx⟩)
    rw [hnone]
    simp [List.find?]

lemma mapGet_mapSet_other (m : List (Int × Bool)) (k k' : Int) (v : Bool)
    (hne : k' ≠ k) : mapGet (mapSet m k v) k' = mapGet m k' := by
  unfold mapSet mapGet
  by_cases hany : m.any (fun e => e.1 == k) = true
  · rw [if_pos hany, List.find?_map]
    have hpf : ((fun (e : Int × Bool) => e.1 == k') ∘
        (fun e => if e.1 == k then (k, v) else e)) = fun e => e.1 == k' := by
      funext e
      by_cases he : e.1 = k
      · simp only [Function.comp]
        rw [if_pos (beq_iff_eq.mpr he)]
        show ((k, v).1 == k') = (e.1 == k')
        rw [he]
      · simp only [Function.comp]
        rw [if_neg (by simpa using he)]
    rw [hpf]
    rcases hf : m.find? (fun e => e.1 == k') with _ | e1
    · rw [hf]
      rfl
    · have hp0x := List.find?_some hf
      have hp1 : (e1.1 == k') = true := hp0x
      have he1 : e1.1 ≠ k := by
        rw [beq_iff_eq] at hp1
        rw [hp1]
        exact hne
      rw [hf]
      show some (if (e1.1 == k) = true then (k, v) else e1).2 = some e1.2
      rw [if_neg (by simpa using he1)]
  · rw [if_neg hany, List.find?_append]
    have hlast : List.find? (fun (e : Int × Bool) => e.1 == k') [(k, v)] = none := by
      rw [List.find?_eq_none]
      intro x hx
      rw [List.mem_singleton] at hx
      subst hx
      simp only [beq_iff_eq]
      exact fun h => hne (h.symm)
    rw [hlast, Option.or_none]

/-- C3: in status playing, submitting an answer records or overwrites the
answer for the figure at the current index, switches the status to reveal,
and leaves the current index, the figure sequence and every other recorded
answer unchanged. -/
theorem submitResponse_records_and_reveals (s : GameState)
    (lr : List (Int × Bool)) (r : Bool) (c : Celebrity)
    (hplay : s.status = Status.playing)
    (hcur : s.currentCelebrity = some c)
    (hidx : s.celebrities.get? s.currentIndex = some c) :
    (submitResponse r s lr).1.status = Status.reveal ∧
    (submitResponse r s lr).1.currentIndex = s.currentIndex ∧
    (submitResponse r s lr).1.celebrities = s.celebrities ∧
    mapGet (submitResponse r s lr).2 c.id = some r ∧
    (∀ k, k ≠ c.id → mapGet (submitResponse r s lr).2 k = mapGet lr k) := by
  unfold submitResponse
  rw [hcur]
  refine ⟨rfl, rfl, rfl, mapGet_mapSet_self lr c.id r, ?_⟩
  intro k hk
  exact mapGet_mapSet_other lr c.id k r hk

/-- Concrete instance of `submitResponse_records_and_reveals`: a playing
session on its single figure with id 1 and an empty answer map. -/
theorem submitResponse_records_and_reveals_witness :
    (submitResponse true
      ⟨some "sid", Status.playing, [⟨1, "A", "a", ⟨1990, 2000⟩, "Actor", 50, []⟩],
       0, [], some ⟨1, "A", "a", ⟨1990, 2000⟩, "Actor", 50, []⟩, none⟩ []).1.status
        = Status.reveal ∧
    mapGet (submitResponse true
      ⟨some "sid", Status.playing, [⟨1, "A", "a", ⟨1990, 2000⟩, "Actor", 50, []⟩],
       0, [], some ⟨1, "A", "a", ⟨1990, 2000⟩, "Actor", 50, []⟩, none⟩ []).2 1
        = some true ∧
    mapGet (submitResponse true
      ⟨some "sid", Status.playing, [⟨1, "A", "a", ⟨1990, 2000⟩, "Actor", 50, []⟩],
       0, [], some ⟨1, "A", "a", ⟨1990, 2000⟩, "Actor", 50, []⟩, none⟩ []).2 0
        = mapGet [] 0 := by
  have h := submitResponse_records_and_reveals
    ⟨some "sid", Status.playing, [⟨1, "A", "a", ⟨1990, 2000⟩, "Actor", 50, []⟩],
     0, [], some ⟨1, "A", "a", ⟨1990, 2000⟩, "Actor", 50, []⟩, none⟩
    [] true ⟨1, "A", "a", ⟨1990, 2000⟩, "Actor", 50, []⟩ rfl rfl rfl
  exact ⟨h.1, h.2.2.2.1, h.2.2.2.2 0 (by decide)⟩

/-- A stored answer as the respond route appends it, with its timestamp. -/
structure StoredResponse where
  celebrityId : Int
  recognized : Bool
  timestamp : String
deriving DecidableEq, Repr

/-- The stored session row of the D1 sessions table, with the celebrities
and responses columns already decoded. -/
structure StoredSession where
  id : String
  status : String
  celebrities : List Celebrity
  current_index : Nat
  responses : List StoredResponse
  completed_at : Option String
deriving DecidableEq, Repr

/-- The JSON payload the respond route returns on success. -/
structure RespondResult where
  revealed : Celebrity
  recognized : Bool
  nextIndex : Nat
  isComplete : Bool
  nextCelebrity : Option Celebrity
deriving DecidableEq, Repr

/-- The respond route of routes/api.ts after the session row is loaded:
reject when the current index has reached the end, otherwise append the
response, advance the index, and mark the session results when complete.
The write to the store happens only on the success path. -/
def respondRoute (s : StoredSession) (recognized : Bool) (now : String) :
    Except String (StoredSession × RespondResult) :=
  if h : s.celebrities.length ≤ s.current_index then
    Except.error "Session already complete"
  else
    let current := s.celebrities.get ⟨s.current_index, lt_of_not_le h⟩
    let responses := s.responses ++ [StoredResponse.mk current.id recognized now]
    let nextIndex := s.current_index + 1
    let isComplete : Bool := decide (s.celebrities.length ≤ nextIndex)
    Except.ok
      ({ s with
          current_index := nextIndex
          responses := responses
          status := if isComplete then "results" else "playing"
          completed_at := if isComplete then some now else none },
       { revealed := current
         recognized := recognized
         nextIndex := nextIndex
         isComplete := isComplete
         nextCelebrity := if isComplete then none else s.celebrities.get? nextIndex })

/-- The stored session after the respond route runs: unchanged on the
error path, the updated row on the success path. -/
def respondApply (s : StoredSession) (recognized : Bool) (now : String) :
    StoredSession :=
  match respondRoute s recognized now with
  | Except.error _ => s
  | Except.ok (s2, _) => s2

/-- C5: submitting an answer to a session whose current index has reached
the number of figures is rejected with the invalid-state error and leaves
the stored session record entirely unmodified. -/
theorem respond_rejected_when_complete (s : StoredSession) (r : Bool)
    (now : String) (h : s.celebrities.length ≤ s.current_index) :
    respondRoute s r now = Except.error "Session already complete" ∧
    respondApply s r now = s := by
  have he : respondRoute s r now = Except.error "Session already complete" := by
    unfold respondRoute
    rw [dif_pos h]
  refine ⟨he, ?_⟩
  unfold respondApply
  rw [he]

/-- Concrete instance of `respond_rejected_when_complete` on a session with
no celebrities at index 0. -/
theorem respond_rejected_when_complete_witness :
    respondRoute ⟨"sid", "playing", [], 0, [], none⟩ true "ts"
        = Except.error "Session already complete" ∧
      respondApply ⟨"sid", "playing", [], 0, [], none⟩ true "ts"
        = ⟨"sid", "playing", [], 0, [], none⟩ :=
  respond_rejected_when_complete ⟨"sid", "playing", [], 0, [], none⟩ true "ts"
    (by decide)

end CelebrityGame
